import Mathlib

/-!
Verification of the state/event coordination layer of the `primitives`
UI-component repository (hover card, checkbox, toggle group).

Each definition is a shallow embedding of the corresponding source
function; theorems settle the spec's claims about them.
-/

namespace Primitives

/-! ### Controllable State Cell

The components call `useControllableState` from the repository's
use-controllable-state package, whose source file is not included here.
The cell is therefore modelled from the spec. -/

/-- Modelled from the spec: the `useControllableState` hook source is not
included; per spec §3/§4.1, the cell holds an optional external value,
an internal value, and reports every attempted new value to `onChange`
(recorded here in `changeLog`, oldest first). The effective value is the
external value when defined, else the internal value. -/
structure ControllableCell (T : Type) where
  externalValue : Option T
  internalValue : T
  changeLog : List T

/-- Modelled from the spec: effective value = externalValue if defined, else
internalValue. -/
def effectiveValue {T : Type} (c : ControllableCell T) : T :=
  c.externalValue.getD c.internalValue

/-- Modelled from the spec: `setValue` takes a literal or an updater of the
previous effective value (a literal `v` is the updater `fun _ => v`).
Every call invokes `onChange` with the attempted new value; the internal
value is mutated only when no external value is supplied. -/
def setValue {T : Type} (c : ControllableCell T) (f : T → T) : ControllableCell T :=
  { externalValue := c.externalValue
    internalValue := if c.externalValue.isSome then c.internalValue else f (effectiveValue c)
    changeLog := c.changeLog ++ [f (effectiveValue c)] }

/-- Replay of a sequence of `setValue` calls on a cell. -/
def runSetValues {T : Type} (c : ControllableCell T) (fs : List (T → T)) : ControllableCell T :=
  fs.foldl setValue c

/-! ### Checkbox checked state (part_000, Checkbox section) -/

/-- The tri-state `CheckedState = boolean | 'indeterminate'` of the Checkbox
source, with `true` as `checked` and `false` as `unchecked`. -/
inductive CheckedState where
  | unchecked
  | checked
  | indeterminate
deriving DecidableEq, Repr

/-- Source `isIndeterminate`: tests for the `'indeterminate'` variant. -/
def isIndeterminate (c : CheckedState) : Bool :=
  match c with
  | CheckedState.indeterminate => true
  | _ => false

/-- The click updater of the Checkbox's `onClick` handler:
`prevChecked => isIndeterminate(prevChecked) ? true : !prevChecked`. -/
def clickTransition (prevChecked : CheckedState) : CheckedState :=
  if isIndeterminate prevChecked then CheckedState.checked
  else if prevChecked = CheckedState.checked then CheckedState.unchecked
  else CheckedState.checked

/-! ### Native Form Bridge (part_000, BubbleInput) -/

/-- The flags of the hidden native checkbox input that BubbleInput writes. -/
structure NativeInput where
  checked : Bool
  indeterminate : Bool
deriving DecidableEq, Repr

/-- An event created with `new Event(kind, { bubbles })` and dispatched on
the hidden input. -/
structure DispatchedEvent where
  kind : String
  bubbles : Bool
deriving DecidableEq, Repr

/-- The value the source assigns to the native `checked` flag:
`isIndeterminate(checked) ? false : checked`. -/
def nativeCheckedOf (checked : CheckedState) : Bool :=
  if isIndeterminate checked then false else decide (checked = CheckedState.checked)

/-- The body of BubbleInput's effect: when the logical checked state differs
from its previous value it sets the native indeterminate flag, sets the
native checked flag through the prototype setter, and dispatches a
`click` event created with the given `bubbles` flag; otherwise it leaves
the input untouched and dispatches nothing. -/
def bubbleInputEffect (prevChecked checked : CheckedState) (bubbles : Bool)
    (input : NativeInput) : NativeInput × List DispatchedEvent :=
  if prevChecked ≠ checked then
    ({ checked := nativeCheckedOf checked, indeterminate := isIndeterminate checked },
      [{ kind := "click", bubbles := bubbles }])
  else (input, [])

/-! ### Checkbox click handler (part_000, Checkbox onClick) -/

/-- Outcome of the Checkbox `onClick` handler. `buttonEventStopped` records
whether the button's click event has had its propagation stopped — by the
consumer's own handler (which runs first) or by the component itself, which
stops it whenever the checkbox is a form control and the consumer has not.
`consumerStoppedRef` is the value stored in
`hasConsumerStoppedPropagationRef` (initially `false`, written only when
the checkbox is a form control). -/
structure ClickResult where
  nextChecked : CheckedState
  buttonEventStopped : Bool
  consumerStoppedRef : Bool
deriving DecidableEq, Repr

/-- The Checkbox `onClick` handler: toggles the checked state with
`clickTransition` and, when the checkbox is a form control, records whether
the consumer stopped propagation and stops propagation itself otherwise. -/
def checkboxClick (isFormControl consumerStopped : Bool) (prevChecked : CheckedState) :
    ClickResult :=
  { nextChecked := clickTransition prevChecked
    buttonEventStopped := consumerStopped || isFormControl
    consumerStoppedRef := if isFormControl then consumerStopped else false }

/-- Number of click-class events that bubble onward to the form after one
user click: the button's own click event (unless its propagation was
stopped) plus the bubbling events dispatched by BubbleInput (rendered only
when the checkbox is a form control, with `bubbles` set to the negation of
the stored consumer-stopped flag). -/
def clickBubbleCount (isFormControl consumerStopped : Bool) (prevChecked : CheckedState)
    (input : NativeInput) : Nat :=
  let r := checkboxClick isFormControl consumerStopped prevChecked
  let buttonCount := if r.buttonEventStopped then 0 else 1
  let inputEvents :=
    if isFormControl then
      (bubbleInputEffect prevChecked r.nextChecked (!r.consumerStoppedRef) input).2
    else []
  buttonCount + (inputEvents.filter (fun e => e.bubbles)).length

/-! ### ToggleGroup type dispatch (ToggleGroup.tsx, ToggleGroup) -/

/-- The two implementation variants ToggleGroup dispatches to. -/
inductive ToggleGroupVariant where
  | single
  | multiple
deriving DecidableEq, Repr

/-- The ToggleGroup render body: renders the single implementation for
`type = 'single'`, the multiple implementation for `type = 'multiple'`,
and otherwise throws `Missing prop ...`. -/
def toggleGroupDispatch (type : String) : Except String ToggleGroupVariant :=
  if type = "single" then Except.ok ToggleGroupVariant.single
  else if type = "multiple" then Except.ok ToggleGroupVariant.multiple
  else Except.error ("Missing prop `type` expected on `ToggleGroup`")

/-- Whether `toggleGroupDispatch` throws for the given `type` prop. -/
def toggleGroupThrows (type : String) : Bool :=
  match toggleGroupDispatch type with
  | Except.error _ => true
  | Except.ok _ => false

/-! ### Toggle Activation Set (ToggleGroup.tsx) -/

/-- An activation-set operation: `ToggleGroupItemImpl.onPressedChange`
calls `onItemActivate(value)` on a press edge and `onItemDeactivate(value)`
on a release edge. -/
inductive ToggleEvent where
  | activate (value : String)
  | deactivate (value : String)
deriving DecidableEq, Repr

/-- Multiple mode `handleButtonActivate` updater:
`(prevValue = []) => [...prevValue, itemValue]`. -/
def handleButtonActivate (prevValue : List String) (itemValue : String) : List String :=
  prevValue ++ [itemValue]

/-- Multiple mode `handleButtonDeactivate` updater:
`(prevValue = []) => prevValue.filter((value) => value !== itemValue)`. -/
def handleButtonDeactivate (prevValue : List String) (itemValue : String) : List String :=
  prevValue.filter (fun value => value != itemValue)

/-- One multiple-mode event applied to the current value. -/
def applyMultipleEvent (value : List String) : ToggleEvent → List String
  | ToggleEvent.activate v => handleButtonActivate value v
  | ToggleEvent.deactivate v => handleButtonDeactivate value v

/-- Replay of a multiple-mode event sequence from the empty value. -/
def runMultiple (events : List ToggleEvent) : List String :=
  events.foldl applyMultipleEvent []

/-- The spec-side set replay: activate is set union with a singleton,
deactivate is set difference with a singleton. -/
def replayStep (s : Finset String) : ToggleEvent → Finset String
  | ToggleEvent.activate v => insert v s
  | ToggleEvent.deactivate v => s.erase v

/-- Set-union/set-difference replay of an event sequence from the empty set. -/
def multipleSetReplay (events : List ToggleEvent) : Finset String :=
  events.foldl replayStep ∅

/-- Press-edge discipline: an item emits `activate(v)` only while not
pressed, and pressed is derived from membership of `v` in the current
value, so along the sequence every activate concerns an absent value. -/
def pressEdge : List String → List ToggleEvent → Bool
  | _, [] => true
  | value, e :: es =>
    (match e with
     | ToggleEvent.activate v => decide (v ∉ value)
     | ToggleEvent.deactivate _ => true) && pressEdge (applyMultipleEvent value e) es

/-- Single mode: `onItemActivate` is `setValue` itself and
`onItemDeactivate` is `() => setValue('')`; the uncontrolled stored value
starts undefined. -/
def applySingleEvent (_value : Option String) : ToggleEvent → Option String
  | ToggleEvent.activate v => some v
  | ToggleEvent.deactivate _ => some ""

/-- Replay of a single-mode event sequence from the undefined value. -/
def runSingle (events : List ToggleEvent) : Option String :=
  events.foldl applySingleEvent none

/-- The value the single-mode provider exposes: `value ? [value] : []`
(both undefined and the empty string are falsy). -/
def singleExposedValue : Option String → List String
  | none => []
  | some v => if v = "" then [] else [v]

/-- Spec-side fold step recording the last intent: an activation records
its value, a deactivation clears the record. -/
def lastActivationStep (_last : Option String) : ToggleEvent → Option String
  | ToggleEvent.activate v => some v
  | ToggleEvent.deactivate _ => none

/-- The last-activated value not subsequently deactivated. -/
def lastActivation (events : List ToggleEvent) : Option String :=
  events.foldl lastActivationStep none

/-! ### HoverCard delayed intent timers (part_000, HoverCard) -/

/-- The timer-relevant state of a mounted HoverCard: the multiset of
scheduled-but-unfired open and close timeout handles, the two refs holding
the most recently armed handle of each kind (0 when never armed, matching
the initial ref value), and a counter supplying the fresh handles that
`window.setTimeout` returns (positive, increasing). -/
structure HoverCardTimers where
  pendingOpen : List Nat
  pendingClose : List Nat
  openTimerRef : Nat
  closeTimerRef : Nat
  nextHandle : Nat
deriving DecidableEq, Repr

/-- The state right after mount: no pending timers, refs at 0. -/
def initialTimers : HoverCardTimers :=
  { pendingOpen := [], pendingClose := [], openTimerRef := 0,
    closeTimerRef := 0, nextHandle := 1 }

/-- `clearTimeout(handle)`: the timeout with that handle, if still
scheduled, is descheduled; clearing a fired, cleared or never-issued
handle does nothing. -/
def clearTimer (s : HoverCardTimers) (handle : Nat) : HoverCardTimers :=
  { s with pendingOpen := s.pendingOpen.filter (fun x => x != handle),
           pendingClose := s.pendingClose.filter (fun x => x != handle) }

/-- `handleOpen`: `clearTimeout(closeTimerRef.current)` then
`openTimerRef.current = window.setTimeout(() => setOpen(true), openDelay)`.
The previous open handle is overwritten, not cleared. -/
def handleOpenTimers (s : HoverCardTimers) : HoverCardTimers :=
  let s1 := clearTimer s s.closeTimerRef
  { s1 with pendingOpen := s1.pendingOpen ++ [s1.nextHandle],
            openTimerRef := s1.nextHandle,
            nextHandle := s1.nextHandle + 1 }

/-- `handleClose`: `clearTimeout(openTimerRef.current)` then
`closeTimerRef.current = window.setTimeout(() => setOpen(false), closeDelay)`. -/
def handleCloseTimers (s : HoverCardTimers) : HoverCardTimers :=
  let s1 := clearTimer s s.openTimerRef
  { s1 with pendingClose := s1.pendingClose ++ [s1.nextHandle],
            closeTimerRef := s1.nextHandle,
            nextHandle := s1.nextHandle + 1 }

/-- A non-touch hover intent: a pointer enter runs `handleOpen`, a pointer
leave runs `handleClose`. -/
inductive PointerIntent where
  | enter
  | leave
deriving DecidableEq, Repr

/-- Apply one intent to the timer state. -/
def applyIntent (s : HoverCardTimers) : PointerIntent → HoverCardTimers
  | PointerIntent.enter => handleOpenTimers s
  | PointerIntent.leave => handleCloseTimers s

/-- The timer state reached from mount by a sequence of intents. -/
def runIntents (intents : List PointerIntent) : HoverCardTimers :=
  intents.foldl applyIntent initialTimers

/-- The unmount cleanup effect:
`clearTimeout(openTimerRef.current); clearTimeout(closeTimerRef.current)`. -/
def unmountCleanup (s : HoverCardTimers) : HoverCardTimers :=
  clearTimer (clearTimer s s.openTimerRef) s.closeTimerRef

/-- Whether an intent sequence alternates, given the preceding intent:
no two consecutive intents of the same kind (every physical
enter/leave/enter sequence on one pointer is of this shape). -/
def alternatingFrom : Option PointerIntent → List PointerIntent → Bool
  | _, [] => true
  | prev, i :: is => (prev != some i) && alternatingFrom (some i) is

/-- The last intent of a sequence, given the preceding one. -/
def lastIntentFrom (prev : Option PointerIntent) (intents : List PointerIntent) :
    Option PointerIntent :=
  intents.foldl (fun _ i => some i) prev

/-- Exact pending-timer shape after a given last intent: after no intent
nothing is pending; after an enter exactly the open timer held in
`openTimerRef` is pending; after a leave exactly the close timer held in
`closeTimerRef` is pending. -/
def timersMatch : Option PointerIntent → HoverCardTimers → Prop
  | none, s => s.pendingOpen = [] ∧ s.pendingClose = []
  | some PointerIntent.enter, s => s.pendingOpen = [s.openTimerRef] ∧ s.pendingClose = []
  | some PointerIntent.leave, s => s.pendingOpen = [] ∧ s.pendingClose = [s.closeTimerRef]

/-! ### HoverCard touch exclusion (part_000, excludeTouch and the
trigger/content wiring) -/

/-- The pointer-type payload of a pointer event. -/
structure PointerEventInfo where
  pointerType : String
deriving DecidableEq, Repr

/-- Source `excludeTouch(eventHandler)`: the returned handler yields
`undefined` without invoking `eventHandler` when the event's pointer type
is `'touch'`, and invokes it otherwise. -/
def excludeTouch {α : Type} (eventHandler : Unit → α) (event : PointerEventInfo) : Option α :=
  if event.pointerType = "touch" then none else some (eventHandler ())

/-- HoverCardTrigger's `onPointerEnter` wiring:
`excludeTouch(context.onOpen)` applied to the timer state. -/
def triggerPointerEnter (s : HoverCardTimers) (event : PointerEventInfo) :
    Option HoverCardTimers :=
  excludeTouch (fun _ => handleOpenTimers s) event

/-- HoverCardTrigger's `onPointerLeave` wiring:
`excludeTouch(context.onClose)` applied to the timer state. -/
def triggerPointerLeave (s : HoverCardTimers) (event : PointerEventInfo) :
    Option HoverCardTimers :=
  excludeTouch (fun _ => handleCloseTimers s) event

/-! ### Theorems for C1 and C5 -/

/-- C1: once the external value of the Controllable State Cell is
non-undefined, any sequence of `setValue` calls leaves the reported
effective value at the external value, while `onChange` still fires once
per call with the attempted new value (computed from the effective value). -/
theorem controlled_cell_reports_intents {T : Type} (e : T) (c : ControllableCell T)
    (fs : List (T → T)) (h : c.externalValue = some e) :
    effectiveValue (runSetValues c fs) = e ∧
    (runSetValues c fs).changeLog = c.changeLog ++ fs.map (fun f => f e) := by
  induction fs generalizing c with
  | nil => simp [runSetValues, effectiveValue, h]
  | cons f fs ih =>
    have h1 : (setValue c f).externalValue = some e := h
    have hv : effectiveValue c = e := by simp [effectiveValue, h]
    have h2 := ih (setValue c f) h1
    have hrun : runSetValues c (f :: fs) = runSetValues (setValue c f) fs := rfl
    refine ⟨by rw [hrun]; exact h2.1, ?_⟩
    rw [hrun, h2.2]
    simp [setValue, hv]

/-- Witness for C1 at a concrete controlled cell. -/
theorem controlled_cell_reports_intents_witness :
    effectiveValue (runSetValues (⟨some 5, 0, []⟩ : ControllableCell Nat)
      [fun _ => 7, fun x => x + 1]) = 5 ∧
    (runSetValues (⟨some 5, 0, []⟩ : ControllableCell Nat)
      [fun _ => 7, fun x => x + 1]).changeLog = [7, 6] := by
  have h := controlled_cell_reports_intents 5 (⟨some 5, 0, []⟩ : ControllableCell Nat)
    [fun _ => 7, fun x => x + 1] rfl
  simpa using h

/-- C5: a click maps Unchecked to Checked, Checked to Unchecked and
Indeterminate to Checked, and no sequence of one or more clicks ever
produces the Indeterminate state. -/
theorem checkbox_click_transitions :
    clickTransition CheckedState.unchecked = CheckedState.checked ∧
    clickTransition CheckedState.checked = CheckedState.unchecked ∧
    clickTransition CheckedState.indeterminate = CheckedState.checked ∧
    ∀ (n : Nat) (c : CheckedState),
      clickTransition^[n + 1] c ≠ CheckedState.indeterminate := by
  refine ⟨rfl, rfl, rfl, ?_⟩
  intro n c
  rw [Function.iterate_succ_apply']
  cases clickTransition^[n] c <;> simp [clickTransition, isIndeterminate]

/-- A click always changes the logical checked state. -/
theorem click_changes_state (c : CheckedState) : clickTransition c ≠ c := by
  cases c <;> decide

/-- C6: BubbleInput dispatches exactly when the logical checked state differs
from its previous value; it then sets the native checked flag (collapsing
Indeterminate to `false`), sets the separate native indeterminate flag, and
dispatches a click event whose `bubbles` flag is the negation of the
consumer-stopped-propagation flag; when the state is unchanged it does
nothing. -/
theorem bubble_input_mirrors_changes (prevChecked checked : CheckedState) (stopped : Bool)
    (input : NativeInput) :
    ((bubbleInputEffect prevChecked checked (!stopped) input).2 ≠ [] ↔ prevChecked ≠ checked) ∧
    (prevChecked ≠ checked →
      (bubbleInputEffect prevChecked checked (!stopped) input).1.checked
          = decide (checked = CheckedState.checked) ∧
      (bubbleInputEffect prevChecked checked (!stopped) input).1.indeterminate
          = decide (checked = CheckedState.indeterminate) ∧
      (bubbleInputEffect prevChecked checked (!stopped) input).2
          = [{ kind := "click", bubbles := !stopped }]) ∧
    (prevChecked = checked →
      bubbleInputEffect prevChecked checked (!stopped) input = (input, [])) := by
  by_cases h : prevChecked = checked
  · simp [bubbleInputEffect, h]
  · cases checked <;> simp [bubbleInputEffect, nativeCheckedOf, isIndeterminate, h]

/-- Witness for C6: the spec's scenario, a click moving the state from
unchecked to checked with no consumer interference sets the native checked
flag and dispatches a bubbling event. -/
theorem bubble_input_mirrors_changes_witness :
    (bubbleInputEffect CheckedState.unchecked CheckedState.checked (!false)
      ⟨false, false⟩).1.checked = true ∧
    (bubbleInputEffect CheckedState.unchecked CheckedState.checked (!false)
      ⟨false, false⟩).2 = [{ kind := "click", bubbles := true }] := by
  have h := bubble_input_mirrors_changes CheckedState.unchecked CheckedState.checked false
    ⟨false, false⟩
  have h2 := h.2.1 (by decide)
  exact ⟨by simpa using h2.1, by simpa using h2.2.2⟩

/-- C10: for a form-control checkbox the button's click event never continues
to bubble (the consumer stopped it, or the component does); when the
consumer did not stop propagation the hidden input's event is dispatched
bubbling, when the consumer did it is created non-bubbling, and in every
case at most one click-class event bubbles to the form per user click. -/
theorem checkbox_single_click_bubbling (consumerStopped : Bool) (prevChecked : CheckedState)
    (input : NativeInput) :
    (checkboxClick true consumerStopped prevChecked).buttonEventStopped = true ∧
    (consumerStopped = false →
      (bubbleInputEffect prevChecked (checkboxClick true false prevChecked).nextChecked
          (!(checkboxClick true false prevChecked).consumerStoppedRef) input).2
        = [{ kind := "click", bubbles := true }]) ∧
    (consumerStopped = true →
      (bubbleInputEffect prevChecked (checkboxClick true true prevChecked).nextChecked
          (!(checkboxClick true true prevChecked).consumerStoppedRef) input).2
        = [{ kind := "click", bubbles := false }]) ∧
    clickBubbleCount true consumerStopped prevChecked input ≤ 1 := by
  have hne : prevChecked ≠ clickTransition prevChecked :=
    fun h => click_changes_state prevChecked h.symm
  refine ⟨by simp [checkboxClick], ?_, ?_, ?_⟩
  · intro _; simp [checkboxClick, bubbleInputEffect, hne]
  · intro _; simp [checkboxClick, bubbleInputEffect, hne]
  · cases consumerStopped <;>
      simp [clickBubbleCount, checkboxClick, bubbleInputEffect, hne]

/-- Witness for C10 at a concrete click on an unchecked form-control
checkbox whose consumer handler does not stop propagation. -/
theorem checkbox_single_click_bubbling_witness :
    (checkboxClick true false CheckedState.unchecked).buttonEventStopped = true ∧
    (bubbleInputEffect CheckedState.unchecked
        (checkboxClick true false CheckedState.unchecked).nextChecked
        (!(checkboxClick true false CheckedState.unchecked).consumerStoppedRef)
        ⟨false, false⟩).2 = [{ kind := "click", bubbles := true }] ∧
    clickBubbleCount true false CheckedState.unchecked ⟨false, false⟩ ≤ 1 := by
  have h := checkbox_single_click_bubbling false CheckedState.unchecked ⟨false, false⟩
  exact ⟨h.1, h.2.1 rfl, h.2.2.2⟩

/-- C7: ToggleGroup throws exactly when the `type` prop is neither
`'single'` nor `'multiple'`; for `'single'` and `'multiple'` it renders the
corresponding implementation without error. -/
theorem toggle_group_type_required :
    (∀ type : String,
      toggleGroupThrows type = (decide (type ≠ "single") && decide (type ≠ "multiple"))) ∧
    toggleGroupDispatch "single" = Except.ok ToggleGroupVariant.single ∧
    toggleGroupDispatch "multiple" = Except.ok ToggleGroupVariant.multiple ∧
    toggleGroupDispatch "radio"
      = Except.error ("Missing prop `type` expected on `ToggleGroup`") := by
  refine ⟨?_, by simp [toggleGroupDispatch], by simp [toggleGroupDispatch],
    by simp [toggleGroupDispatch]⟩
  intro t
  by_cases h1 : t = "single"
  · simp [toggleGroupThrows, toggleGroupDispatch, h1]
  · by_cases h2 : t = "multiple" <;> simp [toggleGroupThrows, toggleGroupDispatch, h1, h2]

/-- Replay invariant for multiple mode: from a duplicate-free value, a
press-edge-disciplined event sequence keeps the value duplicate-free and
tracks the set replay. -/
theorem multiple_replay_invariant (events : List ToggleEvent) :
    ∀ (l : List String), l.Nodup → pressEdge l events = true →
      (events.foldl applyMultipleEvent l).Nodup ∧
      (events.foldl applyMultipleEvent l).toFinset = events.foldl replayStep l.toFinset := by
  induction events with
  | nil => intro l hnd _; exact ⟨hnd, rfl⟩
  | cons e es ih =>
    intro l hnd hp
    rw [List.foldl_cons, List.foldl_cons]
    cases e with
    | activate v =>
      simp only [pressEdge, Bool.and_eq_true, decide_eq_true_eq] at hp
      have hnd' : (handleButtonActivate l v).Nodup := by
        rw [handleButtonActivate, List.nodup_append]
        exact ⟨hnd, List.nodup_singleton v,
          fun a ha hav => hp.1 ((List.mem_singleton.mp hav) ▸ ha)⟩
      have hts : (handleButtonActivate l v).toFinset = insert v l.toFinset := by
        ext a; simp [handleButtonActivate, or_comm]
      have key := ih (handleButtonActivate l v) hnd' hp.2
      refine ⟨key.1, ?_⟩
      show (es.foldl applyMultipleEvent (handleButtonActivate l v)).toFinset
          = es.foldl replayStep (insert v l.toFinset)
      rw [key.2, hts]
    | deactivate v =>
      simp only [pressEdge, Bool.true_and] at hp
      have hnd' : (handleButtonDeactivate l v).Nodup := hnd.filter _
      have hts : (handleButtonDeactivate l v).toFinset = l.toFinset.erase v := by
        ext a
        simp [handleButtonDeactivate, List.mem_filter, Finset.mem_erase, and_comm, bne_iff_ne]
      have key := ih (handleButtonDeactivate l v) hnd' hp
      refine ⟨key.1, ?_⟩
      show (es.foldl applyMultipleEvent (handleButtonDeactivate l v)).toFinset
          = es.foldl replayStep (l.toFinset.erase v)
      rw [key.2, hts]

/-- C2: in multiple mode, for every press-edge event sequence from the empty
value (every activation concerns an absent value, as the pressed flag is a
membership test), the resulting value has no duplicates and equals the
set-union/set-difference replay of the sequence; an activation adds its
value and a deactivation removes its value. -/
theorem multiple_mode_set_replay (events : List ToggleEvent)
    (h : pressEdge [] events = true) :
    (runMultiple events).Nodup ∧
    (runMultiple events).toFinset = multipleSetReplay events ∧
    (∀ (l : List String) (v : String), v ∈ applyMultipleEvent l (ToggleEvent.activate v)) ∧
    (∀ (l : List String) (v : String), v ∉ applyMultipleEvent l (ToggleEvent.deactivate v)) := by
  have key := multiple_replay_invariant events [] List.nodup_nil h
  refine ⟨key.1, ?_, ?_, ?_⟩
  · exact key.2
  · intro l v; simp [applyMultipleEvent, handleButtonActivate]
  · intro l v; simp [applyMultipleEvent, handleButtonDeactivate, List.mem_filter]

/-- Witness for C2 on the concrete press-edge sequence
activate a, activate b, deactivate a. -/
theorem multiple_mode_set_replay_witness :
    pressEdge [] [ToggleEvent.activate ("a"), ToggleEvent.activate ("b"),
      ToggleEvent.deactivate ("a")] = true ∧
    (runMultiple [ToggleEvent.activate ("a"), ToggleEvent.activate ("b"),
      ToggleEvent.deactivate ("a")]).Nodup := by
  refine ⟨by decide, ?_⟩
  exact (multiple_mode_set_replay _ (by decide)).1

/-- Fold correspondence for single mode: the exposed value of the replayed
state matches the exposed value of the recorded last intent. -/
theorem single_exposed_foldl (events : List ToggleEvent) :
    ∀ (s last : Option String), singleExposedValue s = singleExposedValue last →
      singleExposedValue (events.foldl applySingleEvent s)
        = singleExposedValue (events.foldl lastActivationStep last) := by
  induction events with
  | nil => intro s last h; simpa using h
  | cons e es ih =>
    intro s last h
    rw [List.foldl_cons, List.foldl_cons]
    apply ih
    cases e with
    | activate v => rfl
    | deactivate v => simp [applySingleEvent, lastActivationStep, singleExposedValue]

/-- C3: in single mode, the value after any event sequence is either empty
or exactly the last-activated value not subsequently deactivated; an
activation replaces any prior value with its own, and a deactivation
clears the exposed value no matter which value it is passed. -/
theorem single_mode_last_activation (events : List ToggleEvent) :
    (singleExposedValue (runSingle events) = [] ∨
      ∃ v, singleExposedValue (runSingle events) = [v] ∧ lastActivation events = some v) ∧
    (∀ (s : Option String) (v : String), applySingleEvent s (ToggleEvent.activate v) = some v) ∧
    (∀ (s : Option String) (v : String),
      singleExposedValue (applySingleEvent s (ToggleEvent.deactivate v)) = []) := by
  refine ⟨?_, fun s v => rfl, fun s v => by simp [applySingleEvent, singleExposedValue]⟩
  have key := single_exposed_foldl events none none rfl
  rcases hl : events.foldl lastActivationStep none with _ | v
  · left
    rw [show runSingle events = events.foldl applySingleEvent none from rfl, key, hl]
    rfl
  · by_cases hv : v = ""
    · left
      rw [show runSingle events = events.foldl applySingleEvent none from rfl, key, hl]
      simp [singleExposedValue, hv]
    · right
      refine ⟨v, ?_, hl⟩
      rw [show runSingle events = events.foldl applySingleEvent none from rfl, key, hl]
      simp [singleExposedValue, hv]

/-- Invariant for alternating intent sequences: from a state matching the
preceding intent, an alternating sequence leads to a state matching its
last intent. -/
theorem timers_match_run (intents : List PointerIntent) :
    ∀ (prev : Option PointerIntent) (s : HoverCardTimers), timersMatch prev s →
      alternatingFrom prev intents = true →
      timersMatch (lastIntentFrom prev intents) (intents.foldl applyIntent s) := by
  induction intents with
  | nil => intro prev s hm _; simpa [lastIntentFrom] using hm
  | cons i is ih =>
    intro prev s hm halt
    simp only [alternatingFrom, Bool.and_eq_true, bne_iff_ne, ne_eq] at halt
    rw [List.foldl_cons]
    have hstep : timersMatch (some i) (applyIntent s i) := by
      cases i with
      | enter =>
        cases prev with
        | none =>
          obtain ⟨h1, h2⟩ := hm
          simp [applyIntent, handleOpenTimers, clearTimer, timersMatch, h1, h2]
        | some p =>
          cases p with
          | enter => exact absurd rfl halt.1
          | leave =>
            obtain ⟨h1, h2⟩ := hm
            simp [applyIntent, handleOpenTimers, clearTimer, timersMatch, h1, h2,
              List.filter_cons, bne_self_eq_false]
      | leave =>
        cases prev with
        | none =>
          obtain ⟨h1, h2⟩ := hm
          simp [applyIntent, handleCloseTimers, clearTimer, timersMatch, h1, h2]
        | some p =>
          cases p with
          | leave => exact absurd rfl halt.1
          | enter =>
            obtain ⟨h1, h2⟩ := hm
            simp [applyIntent, handleCloseTimers, clearTimer, timersMatch, h1, h2,
              List.filter_cons, bne_self_eq_false]
    have hlast : lastIntentFrom prev (i :: is) = lastIntentFrom (some i) is := rfl
    rw [hlast]
    exact ih (some i) (applyIntent s i) hstep halt.2

/-- Counterexample to C4 as stated: two consecutive open intents (for
example two pointers entering the trigger and the content with no leave
between them) yield a reachable state with two pending open timers,
because `handleOpen` cancels only the close timer and overwrites the open
handle without clearing it. -/
theorem hovercard_double_enter_two_timers :
    (runIntents [PointerIntent.enter, PointerIntent.enter]).pendingOpen = [1, 2] ∧
    ¬ ((runIntents [PointerIntent.enter, PointerIntent.enter]).pendingOpen.length ≤ 1) := by
  decide

/-- C4 amended: along any intent sequence in which open and close intents
alternate (which includes every rapid enter/leave/enter burst), every
reachable state has at most one pending open timer and at most one pending
close timer — in fact at most one pending timer in total, and it is
exactly the last intent's timer, so arming one kind has cancelled the
other kind's pending timer. -/
theorem hovercard_alternating_single_timer (intents : List PointerIntent)
    (h : alternatingFrom none intents = true) :
    timersMatch (lastIntentFrom none intents) (runIntents intents) ∧
    (runIntents intents).pendingOpen.length ≤ 1 ∧
    (runIntents intents).pendingClose.length ≤ 1 ∧
    (runIntents intents).pendingOpen.length + (runIntents intents).pendingClose.length ≤ 1 := by
  have key := timers_match_run intents none initialTimers ⟨rfl, rfl⟩ h
  refine ⟨key, ?_, ?_, ?_⟩ <;>
  · rcases hl : lastIntentFrom none intents with _ | p
    · rw [hl] at key; obtain ⟨h1, h2⟩ := key; simp [runIntents, h1, h2]
    · cases p <;> (rw [hl] at key; obtain ⟨h1, h2⟩ := key; simp [runIntents, h1, h2])

/-- Witness for the amended C4 on the enter/leave/enter sequence. -/
theorem hovercard_alternating_single_timer_witness :
    alternatingFrom none [PointerIntent.enter, PointerIntent.leave, PointerIntent.enter]
      = true ∧
    (runIntents [PointerIntent.enter, PointerIntent.leave,
        PointerIntent.enter]).pendingOpen.length
      + (runIntents [PointerIntent.enter, PointerIntent.leave,
        PointerIntent.enter]).pendingClose.length ≤ 1 :=
  ⟨by decide, (hovercard_alternating_single_timer _ (by decide)).2.2.2⟩

/-- Counterexample to C9 as stated: after two consecutive open intents the
older open timer's handle has been overwritten in the ref, so the unmount
cleanup does not cancel it; it stays pending after teardown and its
`setOpen(true)` callback fires after the component is gone. -/
theorem hovercard_teardown_leaked_timer :
    (unmountCleanup (runIntents [PointerIntent.enter, PointerIntent.enter])).pendingOpen
      = [1] ∧
    (unmountCleanup (runIntents [PointerIntent.enter, PointerIntent.enter])).pendingOpen
      ≠ [] := by
  decide

/-- C9 amended: teardown cancels the timers whose handles are held in the
refs; for every state reached by an alternating intent sequence these are
all the pending timers, so nothing is pending after teardown and no
`setOpen` fires afterwards; cancelling is a no-op on a fired or
never-issued handle and idempotent on any handle. -/
theorem hovercard_teardown_cancels (intents : List PointerIntent)
    (h : alternatingFrom none intents = true) :
    (unmountCleanup (runIntents intents)).pendingOpen = [] ∧
    (unmountCleanup (runIntents intents)).pendingClose = [] ∧
    (∀ (s : HoverCardTimers) (x : Nat),
      x ∉ s.pendingOpen → x ∉ s.pendingClose → clearTimer s x = s) ∧
    (∀ (s : HoverCardTimers) (x : Nat), clearTimer (clearTimer s x) x = clearTimer s x) := by
  have key := timers_match_run intents none initialTimers ⟨rfl, rfl⟩ h
  have hclean : (unmountCleanup (runIntents intents)).pendingOpen = [] ∧
      (unmountCleanup (runIntents intents)).pendingClose = [] := by
    rcases hl : lastIntentFrom none intents with _ | p
    · rw [hl] at key; obtain ⟨h1, h2⟩ := key
      simp [unmountCleanup, clearTimer, runIntents, h1, h2]
    · cases p <;> (rw [hl] at key; obtain ⟨h1, h2⟩ := key) <;>
        simp [unmountCleanup, clearTimer, runIntents, h1, h2, List.filter_cons,
          bne_self_eq_false, List.filter_filter]
  refine ⟨hclean.1, hclean.2, ?_, ?_⟩
  · intro s x hxo hxc
    have ho : s.pendingOpen.filter (fun y => y != x) = s.pendingOpen :=
      List.filter_eq_self.mpr
        (fun a ha => bne_iff_ne.mpr (fun he => hxo (he ▸ ha)))
    have hc : s.pendingClose.filter (fun y => y != x) = s.pendingClose :=
      List.filter_eq_self.mpr
        (fun a ha => bne_iff_ne.mpr (fun he => hxc (he ▸ ha)))
    cases s
    simp only [clearTimer] at *
    simp [ho, hc]
  · intro s x
    simp [clearTimer, List.filter_filter, Bool.and_self]

/-- Witness for the amended C9 after a single enter. -/
theorem hovercard_teardown_cancels_witness :
    alternatingFrom none [PointerIntent.enter] = true ∧
    (unmountCleanup (runIntents [PointerIntent.enter])).pendingOpen = [] ∧
    (unmountCleanup (runIntents [PointerIntent.enter])).pendingClose = [] := by
  have h := hovercard_teardown_cancels [PointerIntent.enter] (by decide)
  exact ⟨by decide, h.1, h.2.1⟩

/-- C8: a touch-originated pointer event makes the wrapped handler return
`undefined` without invoking the intent handler — in particular the
trigger's enter and leave wiring arm no timer — while every non-touch
pointer event invokes the wrapped intent handler. -/
theorem exclude_touch_blocks_touch {α : Type} (eventHandler : Unit → α)
    (event : PointerEventInfo) (s : HoverCardTimers) :
    (event.pointerType = "touch" → excludeTouch eventHandler event = none) ∧
    (event.pointerType ≠ "touch" →
      excludeTouch eventHandler event = some (eventHandler ())) ∧
    triggerPointerEnter s { pointerType := "touch" } = none ∧
    triggerPointerLeave s { pointerType := "touch" } = none ∧
    (event.pointerType ≠ "touch" →
      triggerPointerEnter s event = some (handleOpenTimers s) ∧
      triggerPointerLeave s event = some (handleCloseTimers s)) := by
  refine ⟨fun h => by simp [excludeTouch, h], fun h => by simp [excludeTouch, h],
    by simp [triggerPointerEnter, excludeTouch],
    by simp [triggerPointerLeave, excludeTouch],
    fun h => ⟨by simp [triggerPointerEnter, excludeTouch, h],
      by simp [triggerPointerLeave, excludeTouch, h]⟩⟩

/-- Witness for C8 with a mouse pointer event and a touch pointer event. -/
theorem exclude_touch_blocks_touch_witness :
    excludeTouch (fun _ => (42 : Nat)) { pointerType := "mouse" } = some 42 ∧
    triggerPointerEnter initialTimers { pointerType := "touch" } = none := by
  have h := exclude_touch_blocks_touch (fun _ => (42 : Nat))
    { pointerType := "mouse" } initialTimers
  exact ⟨h.2.1 (by decide), h.2.2.2.1⟩

end Primitives
